import Mathlib

/-!
Verification of the Food Waste Reduction System (`food_waste_reduction_system.py`).

The Python module is shallowly embedded: Python values become the inductive
type `PyVal` (dictionaries are association lists with string keys, numbers are
integers or rationals — `float` is modelled as an exact rational, so the
non-finite floats `nan`/`inf` are outside the model), "today" becomes an
explicit `Date` parameter, and an uncaught Python exception becomes
`Except.error`.  Operations in which every reachable Python exception is
caught are modelled as total functions.
-/

/-- A Python value as used by the food waste reduction module.
Dictionary keys are restricted to strings (the only keys the module ever
reads or writes); `float` is modelled as an exact rational. -/
inductive PyVal where
  | none : PyVal
  | bool (b : Bool) : PyVal
  | int (n : Int) : PyVal
  | float (q : Rat) : PyVal
  | str (s : String) : PyVal
  | list (xs : List PyVal) : PyVal
  | dict (kvs : List (String × PyVal)) : PyVal

/-- Numeric view of a value: Python treats `bool` as an `int`
(`isinstance(True, int)` holds), so `bool`, `int` and `float` are numeric. -/
def toNum : PyVal → Option Rat
  | .bool b => some (if b then 1 else 0)
  | .int n => some (n : Rat)
  | .float q => some q
  | _ => Option.none

mutual
/-- Python `==`.  Numbers compare by value across `bool`/`int`/`float`,
strings by content, lists pointwise; dictionary equality is modelled as
ordered structural equality (the module never compares dictionaries). -/
def pyEq : PyVal → PyVal → Bool
  | .none, .none => true
  | .str s, .str t => s == t
  | .list xs, .list ys => pyEqList xs ys
  | .dict xs, .dict ys => pyEqKVs xs ys
  | a, b =>
    match toNum a, toNum b with
    | some x, some y => x == y
    | _, _ => false

/-- Pointwise Python `==` on lists. -/
def pyEqList : List PyVal → List PyVal → Bool
  | [], [] => true
  | x :: xs, y :: ys => pyEq x y && pyEqList xs ys
  | _, _ => false

/-- Pointwise Python `==` on dictionary entries. -/
def pyEqKVs : List (String × PyVal) → List (String × PyVal) → Bool
  | [], [] => true
  | (k, v) :: xs, (k', v') :: ys => k == k' && pyEq v v' && pyEqKVs xs ys
  | _, _ => false
end

/-- Python `isinstance(x, str)`. -/
def isStr : PyVal → Bool
  | .str _ => true
  | _ => false

/-- Python `isinstance(x, (int, float))`; holds for `bool` as well, since Python's
`bool` is a subclass of `int`. -/
def isNumber : PyVal → Bool
  | .bool _ => true
  | .int _ => true
  | .float _ => true
  | _ => false

/-- Python `isinstance(x, int)`; holds for `bool` as well. -/
def isIntInstance : PyVal → Bool
  | .bool _ => true
  | .int _ => true
  | _ => false

/-- Python `isinstance(x, dict)`. -/
def isDict : PyVal → Bool
  | .dict _ => true
  | _ => false

/-- Python `isinstance(x, list)`. -/
def isList : PyVal → Bool
  | .list _ => true
  | _ => false

/-- The rational value of a numeric `PyVal` (`0` on non-numbers; only used
after an `isNumber` check, mirroring the source's `isinstance` guard). -/
def numVal : PyVal → Rat
  | .bool b => if b then 1 else 0
  | .int n => (n : Rat)
  | .float q => q
  | _ => 0

/-- The string content of a `PyVal` (`""` on non-strings; only used after an
`isStr` check). -/
def strOf : PyVal → String
  | .str s => s
  | _ => ""

/-- Dictionary lookup: Python `d[k]` / `k in d` on the association list. -/
def dictLookup : List (String × PyVal) → String → Option PyVal
  | [], _ => Option.none
  | (k0, v) :: rest, k => if k0 = k then some v else dictLookup rest k

/-- Python `d.get(k, default)` specialised to a `.none` default, used where
presence has already been established. -/
def pyGetD (kvs : List (String × PyVal)) (k : String) : PyVal :=
  (dictLookup kvs k).getD .none

/-- The `required_fields` list of `validate_food_item`, in source order. -/
def requiredFields : List String :=
  ["id", "name", "category", "quantity", "unit", "expiration_date", "storage_location"]

/-- The `valid_categories` list of `validate_food_item`, in source order. -/
def validCategories : List String :=
  ["Produce", "Dairy", "Bakery", "Meat", "Frozen", "Canned", "Dry Goods", "Prepared"]

/-- Result value of `validate_food_item`: `{"is_valid": ..., "message": ...}`. -/
structure ValidationResult where
  is_valid : Bool
  message : String
deriving DecidableEq

/-- The first required field not present in the record, if any: the source's
`for field in required_fields: if field not in food_item: ...` loop. -/
def missingField (kvs : List (String × PyVal)) : Option String :=
  requiredFields.find? (fun f => (dictLookup kvs f).isNone)

/-- The function `validate_food_item` from `food_waste_reduction_system.py`: non-dict
rejection, required-field presence in fixed order, then type/range checks on
`id`, `name`, `quantity` and `category` exactly in source order. -/
def validate_food_item (food_item : PyVal) : ValidationResult :=
  match food_item with
  | .dict kvs =>
    match missingField kvs with
    | some f => ⟨false, "Missing required field: " ++ f⟩
    | Option.none =>
      if isStr (pyGetD kvs "id") = true then
        if isStr (pyGetD kvs "name") = true then
          if isNumber (pyGetD kvs "quantity") = true ∧ 0 ≤ numVal (pyGetD kvs "quantity") then
            if isStr (pyGetD kvs "category") = true then
              if strOf (pyGetD kvs "category") ∈ validCategories then
                ⟨true, "Food item data is valid"⟩
              else
                ⟨false, "Invalid category. Must be one of: " ++
                  String.intercalate ", " validCategories⟩
            else ⟨false, "Category must be a string"⟩
          else ⟨false, "Quantity must be a positive number"⟩
        else ⟨false, "Name must be a string"⟩
      else ⟨false, "ID must be a string"⟩
  | _ => ⟨false, "Food item must be a dictionary"⟩

/-- A proleptic-Gregorian calendar date, the embedding of `datetime.date`. -/
structure Date where
  year : Nat
  month : Nat
  day : Nat
deriving DecidableEq

/-- Gregorian leap-year test, as used by `datetime`. -/
def isLeap (y : Nat) : Bool :=
  (y % 4 == 0 && y % 100 != 0) || y % 400 == 0

/-- Length of a month, as used by `datetime` (month `1`..`12`). -/
def daysInMonth (y m : Nat) : Nat :=
  if m = 2 then (if isLeap y then 29 else 28)
  else if m = 4 ∨ m = 6 ∨ m = 9 ∨ m = 11 then 30
  else 31

/-- Days in year `y` strictly before month `m` (the `_days_before_month`
table of `datetime`). -/
def daysBeforeMonth (y m : Nat) : Nat :=
  (((List.range (m - 1)).map (fun i => daysInMonth y (i + 1))).sum)

/-- Days before January 1 of year `y` (the `_days_before_year` helper of
`datetime`): `(y-1)*365 + (y-1)/4 - (y-1)/100 + (y-1)/400`. -/
def daysBeforeYear (y : Nat) : Nat :=
  (y - 1) * 365 + (y - 1) / 4 + (y - 1) / 400 - (y - 1) / 100

/-- The proleptic-Gregorian ordinal of a date (`datetime.date.toordinal`);
differences of ordinals are exactly calendar-day differences. -/
def toOrdinal (d : Date) : Nat :=
  daysBeforeYear d.year + daysBeforeMonth d.year d.month + d.day

/-- A date `datetime.date` accepts: positive year, month `1`..`12`, day
within the month. -/
def validDate (d : Date) : Prop :=
  1 ≤ d.year ∧ 1 ≤ d.month ∧ d.month ≤ 12 ∧ 1 ≤ d.day ∧ d.day ≤ daysInMonth d.year d.month

instance (d : Date) : Decidable (validDate d) := by
  unfold validDate; infer_instance

/-- Chronological (lexicographic year/month/day) strict order on dates. -/
def dateLt (a b : Date) : Prop :=
  a.year < b.year ∨ (a.year = b.year ∧
    (a.month < b.month ∨ (a.month = b.month ∧ a.day < b.day)))

instance (a b : Date) : Decidable (dateLt a b) := by
  unfold dateLt; infer_instance

/-- The calendar successor of a date. -/
def nextDate (d : Date) : Date :=
  if d.day < daysInMonth d.year d.month then ⟨d.year, d.month, d.day + 1⟩
  else if d.month < 12 then ⟨d.year, d.month + 1, 1⟩
  else ⟨d.year + 1, 1, 1⟩

/-- Splitting a character list at `'-'` separators, the `str.split("-")`
semantics the strptime format string induces (empty pieces preserved). -/
def splitDash : List Char → List (List Char)
  | [] => [[]]
  | c :: rest =>
    if c = '-' then [] :: splitDash rest
    else
      match splitDash rest with
      | g :: gs => (c :: g) :: gs
      | [] => [[c]]

/-- Decimal digit run (CPython strptime matches `\d` per digit; the model
restricts to ASCII digits). -/
def allDigits (l : List Char) : Bool :=
  l.all Char.isDigit

/-- Numeric value of a decimal digit run (`int()` on the matched group). -/
def digitsToNat (l : List Char) : Nat :=
  l.foldl (fun n c => n * 10 + (c.toNat - 48)) 0

/-- The embedding of
`datetime.datetime.strptime(s, "%Y-%m-%d")` followed by `.date()`:
CPython matches `\d{4}-\d{1,2}-\d{1,2}` against the whole string and then
requires a real calendar date with a positive year; `Option.none` is the
`ValueError` outcome. -/
def parseDate (s : String) : Option Date :=
  match splitDash s.toList with
  | [ys, ms, ds] =>
    if ys.length = 4 ∧ allDigits ys = true ∧
       1 ≤ ms.length ∧ ms.length ≤ 2 ∧ allDigits ms = true ∧
       1 ≤ ds.length ∧ ds.length ≤ 2 ∧ allDigits ds = true then
      let y := digitsToNat ys
      let m := digitsToNat ms
      let d := digitsToNat ds
      if 1 ≤ y ∧ 1 ≤ m ∧ m ≤ 12 ∧ 1 ≤ d ∧ d ≤ daysInMonth y m then
        some ⟨y, m, d⟩
      else Option.none
    else Option.none
  | _ => Option.none

/-- The function `calculate_days_until_expiration` from the source, with the ambient
`datetime.date.today()` made an explicit `today` parameter.  Only
`ValueError` is caught in the source, so a non-`None` non-string argument is
an uncaught `TypeError`, modelled as `Except.error`. -/
def calculate_days_until_expiration (today : Date) : PyVal → Except String Int
  | .none => .ok (-1)
  | .str s =>
    match parseDate s with
    | some d => .ok ((toOrdinal d : Int) - (toOrdinal today : Int))
    | Option.none => .ok (-1)
  | _ => .error "TypeError: strptime() argument 1 must be str"

/-- The threshold actually used by `identify_expiring_items`:
`if days_threshold is None or not isinstance(days_threshold, int): 7`.
Python's `bool` is an `int` instance, so `True`/`False` are kept as `1`/`0`. -/
def thresholdOf : PyVal → Int
  | .int n => n
  | .bool b => if b then 1 else 0
  | _ => 7

/-- The per-item loop body of `identify_expiring_items`: skip non-dict items
and items without `expiration_date`, compute the days (which can raise), keep
the item when `0 <= days <= days_threshold`. -/
def expiringGo (today : Date) (n : Int) : List PyVal → Except String (List PyVal)
  | [] => .ok []
  | x :: rest =>
    match x with
    | .dict kvs =>
      match dictLookup kvs "expiration_date" with
      | some v =>
        match calculate_days_until_expiration today v with
        | .ok d =>
          match expiringGo today n rest with
          | .ok tail => .ok (if 0 ≤ d ∧ d ≤ n then x :: tail else tail)
          | .error e => .error e
        | .error e => .error e
      | Option.none => expiringGo today n rest
    | _ => expiringGo today n rest

/-- The function `identify_expiring_items` from the source: empty list for a non-list
collection, threshold defaulting, then the filtering loop. -/
def identify_expiring_items (today : Date) (food_items days_threshold : PyVal) :
    Except String (List PyVal) :=
  match food_items with
  | .list items => expiringGo today (thresholdOf days_threshold) items
  | _ => .ok []

/-- The sort key of `sort_items_by_expiration`:
`x.get("expiration_date", "9999-12-31") if isinstance(x, dict) else "9999-12-31"`. -/
def sortKey : PyVal → PyVal
  | .dict kvs => (dictLookup kvs "expiration_date").getD (.str "9999-12-31")
  | _ => .str "9999-12-31"

/-- String content of a sort key (`""` on non-strings; meaningful whenever
all keys are strings, the case the specification describes). -/
def keyStr (x : PyVal) : String :=
  strOf (sortKey x)

/-- Comparison of sort keys by string order, the order `sorted` realises on
string keys (Lean's `String` order and Python's agree: both compare code
points lexicographically). -/
def keyLe (a b : PyVal) : Prop :=
  keyStr a ≤ keyStr b

instance : DecidableRel keyLe := fun a b =>
  inferInstanceAs (Decidable (keyStr a ≤ keyStr b))

instance : IsTotal PyVal keyLe := ⟨fun a b => le_total (keyStr a) (keyStr b)⟩

instance : IsTrans PyVal keyLe := ⟨fun _ _ _ h1 h2 => le_trans h1 h2⟩

/-- Boolean test that an element's sort key is the string `s`. -/
def keyIs (s : String) (x : PyVal) : Bool :=
  keyStr x == s

mutual
/-- Python `<` on values, as used by `sorted` on the computed keys: numbers
compare by value, strings lexicographically, lists lexicographically with
`==`/`<` on elements; anything else is an uncaught `TypeError`. -/
def pyLt : PyVal → PyVal → Except String Bool
  | .str s, .str t => .ok (decide (s < t))
  | .list xs, .list ys => pyLtList xs ys
  | a, b =>
    match toNum a, toNum b with
    | some x, some y => .ok (decide (x < y))
    | _, _ => .error "TypeError: unsupported comparison"

/-- Python `<` on lists: lexicographic using element `==` then `<`. -/
def pyLtList : List PyVal → List PyVal → Except String Bool
  | [], [] => .ok false
  | [], _ :: _ => .ok true
  | _ :: _, [] => .ok false
  | x :: xs, y :: ys => if pyEq x y then pyLtList xs ys else pyLt x y
end

/-- Stable insertion of `x` (a later input element) into the already sorted
list `l` of earlier elements, comparing keys with Python `<`: `x` goes before
the first element whose key is not below `x`'s, hence after all equal keys. -/
def insertByKeyE (x : PyVal) : List PyVal → Except String (List PyVal)
  | [] => .ok [x]
  | y :: ys =>
    match pyLt (sortKey y) (sortKey x) with
    | .ok true =>
      match insertByKeyE x ys with
      | .ok t => .ok (y :: t)
      | .error e => .error e
    | .ok false => .ok (x :: y :: ys)
    | .error e => .error e

/-- Stable sort by key in the `Except` monad: the model of Python's stable
`sorted(..., key=...)` (any stable sort computes the same list whenever all
key comparisons are defined). -/
def insertionSortE : List PyVal → Except String (List PyVal)
  | [] => .ok []
  | x :: xs =>
    match insertionSortE xs with
    | .ok t => insertByKeyE x t
    | .error e => .error e

/-- The function `sort_items_by_expiration` from the source: empty list for a non-list
input, otherwise a stable sort of a copy by the `expiration_date` key. -/
def sort_items_by_expiration (food_items : PyVal) : Except String (List PyVal) :=
  match food_items with
  | .list items => insertionSortE items
  | _ => .ok []

/-- Character-list equality with a prefix of the second list, the first step
of Python's substring test. -/
def startsWithChars : List Char → List Char → Bool
  | [], _ => true
  | _ :: _, [] => false
  | a :: p, b :: l => a == b && startsWithChars p l

/-- Python `t in s` on strings: `t` occurs as a contiguous substring of `s`
(the empty string occurs in every string). -/
def hasSubChars (needle : List Char) : List Char → Bool
  | [] => needle.isEmpty
  | b :: t => startsWithChars needle (b :: t) || hasSubChars needle t

/-- Python `needle in container`, as used by `match_donations`: list
membership via `==`, substring test on strings (string containers require a
string needle), key membership on dicts (unhashable needles raise); any other
container is an uncaught `TypeError`. -/
def pyContains (container needle : PyVal) : Except String Bool :=
  match container with
  | .list xs => .ok (xs.any (fun c => pyEq c needle))
  | .str s =>
    match needle with
    | .str t => .ok (hasSubChars t.toList s.toList)
    | _ => .error "TypeError: in string requires string as left operand"
  | .dict kvs =>
    match needle with
    | .str t => .ok (kvs.any (fun kv => kv.fst == t))
    | .list _ => .error "TypeError: unhashable type"
    | .dict _ => .error "TypeError: unhashable type"
    | _ => .ok false
  | _ => .error "TypeError: argument of type is not iterable"

/-- The inner recipient scan of `match_donations`: skip non-dict recipients
and recipients without `accepts_categories`; return the first recipient whose
categories contain the item's category. -/
def findRecipientE (cat : PyVal) : List PyVal → Except String (Option PyVal)
  | [] => .ok Option.none
  | r :: rest =>
    match r with
    | .dict kvs =>
      match dictLookup kvs "accepts_categories" with
      | some acc =>
        match pyContains acc cat with
        | .ok true => .ok (some r)
        | .ok false => findRecipientE cat rest
        | .error e => .error e
      | Option.none => findRecipientE cat rest
    | _ => findRecipientE cat rest

/-- The outer item loop of `match_donations`: skip non-dict items and items
without `category`; emit `{"item": ..., "recipient": ...}` for the first
accepting recipient, nothing when none accepts. -/
def matchGo (recs : List PyVal) : List PyVal → Except String (List PyVal)
  | [] => .ok []
  | item :: rest =>
    match item with
    | .dict kvs =>
      match dictLookup kvs "category" with
      | some cat =>
        match findRecipientE cat recs with
        | .ok (some r) =>
          match matchGo recs rest with
          | .ok tail => .ok (.dict [("item", item), ("recipient", r)] :: tail)
          | .error e => .error e
        | .ok Option.none => matchGo recs rest
        | .error e => .error e
      | Option.none => matchGo recs rest
    | _ => matchGo recs rest

/-- The function `match_donations` from the source: empty list when either argument is not
a list, otherwise the greedy first-fit pairing loop. -/
def match_donations (food_items recipients : PyVal) : Except String (List PyVal) :=
  match food_items, recipients with
  | .list items, .list recs => matchGo recs items
  | _, _ => .ok []

/-- Python `str()` of a value as interpolated by the f-string of
`format_food_item`; scalar renderings are exact, the float/list/dict
renderings are abstracted (no claim depends on them). -/
def pyStr : PyVal → String
  | .none => "None"
  | .bool b => if b then "True" else "False"
  | .int n => toString n
  | .float q => toString q
  | .str s => s
  | .list _ => "<list>"
  | .dict _ => "<dict>"

/-- The function `format_food_item` from the source: the sentinel string for a non-dict
input, and the f-string guarded by `except KeyError` — so a missing field
among `id`, `name`, `quantity`, `unit`, `category`, `expiration_date` also
yields the sentinel, and no exception escapes. -/
def format_food_item (food_item : PyVal) : String :=
  match food_item with
  | .dict kvs =>
    match dictLookup kvs "id", dictLookup kvs "name", dictLookup kvs "quantity",
          dictLookup kvs "unit", dictLookup kvs "category",
          dictLookup kvs "expiration_date" with
    | some i, some n, some q, some u, some c, some e =>
      pyStr i ++ " | " ++ pyStr n ++ " | " ++ pyStr q ++ " " ++ pyStr u ++ " | " ++
        pyStr c ++ " | Expires: " ++ pyStr e
    | _, _, _, _, _, _ => "Invalid food item format"
  | _ => "Invalid food item format"

/-- An argument on which `calculate_days_until_expiration` cannot raise:
`None` or a string. -/
def dateArgOk : PyVal → Bool
  | .none => true
  | .str _ => true
  | _ => false

/-- An element the expiring-items loop handles without raising: anything that
is skipped, or whose `expiration_date` value is `None` or a string. -/
def dateFieldOk : PyVal → Bool
  | .dict kvs =>
    match dictLookup kvs "expiration_date" with
    | some v => dateArgOk v
    | Option.none => true
  | _ => true

/-- A food-items argument on which `identify_expiring_items` cannot raise. -/
def collOkDates : PyVal → Bool
  | .list items => items.all dateFieldOk
  | _ => true

/-- A collection argument on which `sort_items_by_expiration` cannot raise:
every computed sort key is a string. -/
def collOkKeys : PyVal → Bool
  | .list items => items.all (fun x => isStr (sortKey x))
  | _ => true

/-- A recipient the matching loop handles without raising: anything that is
skipped, or whose `accepts_categories` value is a list. -/
def accOk : PyVal → Bool
  | .dict kvs =>
    match dictLookup kvs "accepts_categories" with
    | some (.list _) => true
    | some _ => false
    | Option.none => true
  | _ => true

/-- A recipients argument on which `match_donations` cannot raise. -/
def collOkAcc : PyVal → Bool
  | .list recs => recs.all accOk
  | _ => true

/-- Specification-level predicate: the item is a dict with an
`expiration_date` whose computed days-to-expire `d` satisfies `0 ≤ d ≤ n`.
`identify_expiring_items` returns exactly the input's `filter` by this. -/
def keepsItem (today : Date) (n : Int) (x : PyVal) : Bool :=
  match x with
  | .dict kvs =>
    match dictLookup kvs "expiration_date" with
    | some v =>
      match calculate_days_until_expiration today v with
      | .ok d => decide (0 ≤ d ∧ d ≤ n)
      | .error _ => false
    | Option.none => false
  | _ => false

/-- Specification-level greedy scan (from the spec's words): the first
recipient in input order that is a dict whose `accepts_categories` list
contains the item's category; recipients without the field never match. -/
def firstAccepting (cat : PyVal) : List PyVal → Option PyVal
  | [] => Option.none
  | r :: rest =>
    match r with
    | .dict kvs =>
      match dictLookup kvs "accepts_categories" with
      | some (.list cs) =>
        if cs.any (fun c => pyEq c cat) then some r else firstAccepting cat rest
      | some _ => firstAccepting cat rest
      | Option.none => firstAccepting cat rest
    | _ => firstAccepting cat rest

/-- Specification-level per-item result of greedy first-fit matching: at most
one `{"item": ..., "recipient": ...}` pair per item, none when the item is
not a dict, lacks `category`, or no recipient accepts it. -/
def matchOf (recs : List PyVal) (item : PyVal) : Option PyVal :=
  match item with
  | .dict kvs =>
    match dictLookup kvs "category" with
    | some cat =>
      match firstAccepting cat recs with
      | some r => some (.dict [("item", item), ("recipient", r)])
      | Option.none => Option.none
    | Option.none => Option.none
  | _ => Option.none

theorem isLeap_iff (y : Nat) :
    isLeap y = true ↔ ((y % 4 = 0 ∧ y % 100 ≠ 0) ∨ y % 400 = 0) := by
  simp [isLeap]

theorem daysInMonth_pos (y m : Nat) : 1 ≤ daysInMonth y m := by
  unfold daysInMonth; split_ifs <;> omega

set_option maxHeartbeats 1000000 in
theorem daysBeforeYear_step (y : Nat) (h : 1 ≤ y) :
    daysBeforeYear (y + 1) = daysBeforeYear y + (if isLeap y then 366 else 365) := by
  have hL := isLeap_iff y
  obtain ⟨n, rfl⟩ : ∃ n, y = n + 1 := ⟨y - 1, by omega⟩
  unfold daysBeforeYear
  simp only [Nat.add_sub_cancel]
  have e4 : (n + 1) / 4 = n / 4 + if 4 ∣ (n + 1) then 1 else 0 := Nat.succ_div n 4
  have e100 : (n + 1) / 100 = n / 100 + if 100 ∣ (n + 1) then 1 else 0 := Nat.succ_div n 100
  have e400 : (n + 1) / 400 = n / 400 + if 400 ∣ (n + 1) then 1 else 0 := Nat.succ_div n 400
  have hle2 : n / 100 ≤ n / 4 := Nat.div_le_div_left (by norm_num) (by norm_num)
  cases hc : isLeap (n + 1)
  · rw [hc] at hL
    simp at hL
    simp only [Bool.false_eq_true, if_false]
    split_ifs at e4 e100 e400 <;> rw [e4, e100, e400] <;> omega
  · rw [hc] at hL
    simp at hL
    simp only [if_true]
    split_ifs at e4 e100 e400 <;> rw [e4, e100, e400] <;> omega

theorem daysBeforeMonth_step (y m : Nat) (h : 1 ≤ m) :
    daysBeforeMonth y (m + 1) = daysBeforeMonth y m + daysInMonth y m := by
  obtain ⟨k, rfl⟩ : ∃ k, m = k + 1 := ⟨m - 1, by omega⟩
  unfold daysBeforeMonth
  simp [List.range_succ]

theorem daysBeforeMonth_mono (y : Nat) {m1 m2 : Nat} (h1 : 1 ≤ m1) (h : m1 ≤ m2) :
    daysBeforeMonth y m1 ≤ daysBeforeMonth y m2 := by
  induction m2, h using Nat.le_induction with
  | base => exact le_refl _
  | succ n hn ih =>
    calc daysBeforeMonth y m1 ≤ daysBeforeMonth y n := ih
    _ ≤ daysBeforeMonth y n + daysInMonth y n := Nat.le_add_right _ _
    _ = daysBeforeMonth y (n + 1) := (daysBeforeMonth_step y n (le_trans h1 hn)).symm

theorem daysBeforeMonth_total (y : Nat) :
    daysBeforeMonth y 13 = if isLeap y then 366 else 365 := by
  cases hc : isLeap y <;>
    simp [daysBeforeMonth, daysInMonth, hc, List.range_succ]

theorem inYear_bound {y m d : Nat} (hm1 : 1 ≤ m) (hm2 : m ≤ 12)
    (hd : d ≤ daysInMonth y m) :
    daysBeforeMonth y m + d ≤ if isLeap y then 366 else 365 := by
  calc daysBeforeMonth y m + d ≤ daysBeforeMonth y m + daysInMonth y m :=
        Nat.add_le_add_left hd _
  _ = daysBeforeMonth y (m + 1) := (daysBeforeMonth_step y m hm1).symm
  _ ≤ daysBeforeMonth y 13 := daysBeforeMonth_mono y (by omega) (by omega)
  _ = if isLeap y then 366 else 365 := daysBeforeMonth_total y

theorem daysBeforeYear_mono {y1 y2 : Nat} (h1 : 1 ≤ y1) (h : y1 < y2) :
    daysBeforeYear y1 + (if isLeap y1 then 366 else 365) ≤ daysBeforeYear y2 := by
  induction y2, h using Nat.le_induction with
  | base => exact le_of_eq (daysBeforeYear_step y1 h1).symm
  | succ n hn ih =>
    calc daysBeforeYear y1 + (if isLeap y1 then 366 else 365) ≤ daysBeforeYear n := ih
    _ ≤ daysBeforeYear n + (if isLeap n then 366 else 365) := Nat.le_add_right _ _
    _ = daysBeforeYear (n + 1) := (daysBeforeYear_step n (by omega)).symm

theorem toOrdinal_lt_of_dateLt {a b : Date} (ha : validDate a) (hb : validDate b)
    (h : dateLt a b) : toOrdinal a < toOrdinal b := by
  obtain ⟨hay, ham1, ham2, had1, had2⟩ := ha
  obtain ⟨hby, hbm1, hbm2, hbd1, hbd2⟩ := hb
  unfold toOrdinal
  rcases h with hy | ⟨hy, hm | ⟨hm, hd⟩⟩
  · have h1 : daysBeforeMonth a.year a.month + a.day ≤ if isLeap a.year then 366 else 365 :=
      inYear_bound ham1 ham2 had2
    have h2 : daysBeforeYear a.year + (if isLeap a.year then 366 else 365) ≤
        daysBeforeYear b.year := daysBeforeYear_mono hay hy
    omega
  · rw [hy]
    have h1 : daysBeforeMonth b.year a.month + a.day ≤ daysBeforeMonth b.year (a.month + 1) := by
      rw [daysBeforeMonth_step b.year a.month ham1]
      have : a.day ≤ daysInMonth b.year a.month := by rw [← hy]; exact had2
      omega
    have h2 : daysBeforeMonth b.year (a.month + 1) ≤ daysBeforeMonth b.year b.month :=
      daysBeforeMonth_mono b.year (by omega) (by omega)
    omega
  · rw [hy, hm]
    omega

theorem date_trichotomy (a b : Date) : a = b ∨ dateLt a b ∨ dateLt b a := by
  rcases a with ⟨y1, m1, d1⟩
  rcases b with ⟨y2, m2, d2⟩
  simp only [dateLt, Date.mk.injEq]
  omega

theorem daysBeforeMonth_one (y : Nat) : daysBeforeMonth y 1 = 0 := by
  simp [daysBeforeMonth]

theorem toOrdinal_nextDate {d : Date} (h : validDate d) :
    toOrdinal (nextDate d) = toOrdinal d + 1 := by
  obtain ⟨hy, hm1, hm2, hd1, hd2⟩ := h
  unfold nextDate
  split_ifs with h1 h2
  · simp only [toOrdinal]
    omega
  · have hstep := daysBeforeMonth_step d.year d.month hm1
    have hday : d.day = daysInMonth d.year d.month := by omega
    simp only [toOrdinal]
    omega
  · have hm : d.month = 12 := by omega
    have hday : d.day = daysInMonth d.year d.month := by omega
    rw [hm] at hday
    have hstep := daysBeforeMonth_step d.year 12 (by omega)
    norm_num at hstep
    have htot := daysBeforeMonth_total d.year
    have hystep := daysBeforeYear_step d.year hy
    have h31 : daysInMonth d.year 12 = 31 := by simp [daysInMonth]
    have hbm1 : daysBeforeMonth (d.year + 1) 1 = 0 := daysBeforeMonth_one _
    simp only [toOrdinal]
    rw [hm]
    cases hc : isLeap d.year <;> rw [hc] at htot hystep <;>
      simp only [Bool.false_eq_true, if_false, if_true] at htot hystep <;> omega

theorem parseDate_valid {s : String} {d : Date} (h : parseDate s = some d) :
    validDate d := by
  unfold parseDate at h
  split at h
  · simp only [] at h
    split_ifs at h with h1 h2
    cases h
    exact ⟨h2.1, h2.2.1, h2.2.2.1, h2.2.2.2.1, h2.2.2.2.2⟩
  · cases h

/-- C4: `calculate_days_until_expiration` returns `-1` for null input and for
every string not parseable as a `YYYY-MM-DD` calendar date; for every
parseable date string it returns the exact calendar-day difference
(expiration minus today): zero exactly when the date equals today, positive
exactly for future dates, negative exactly for past dates (the ordinal is a
genuine day count: each calendar successor increases it by one). -/
theorem c4_expiration_arithmetic (today : Date) (htoday : validDate today) :
    calculate_days_until_expiration today PyVal.none = Except.ok (-1)
    ∧ (∀ s : String, parseDate s = Option.none →
        calculate_days_until_expiration today (PyVal.str s) = Except.ok (-1))
    ∧ (∀ (s : String) (d : Date), parseDate s = some d →
        calculate_days_until_expiration today (PyVal.str s) =
          Except.ok ((toOrdinal d : Int) - (toOrdinal today : Int))
        ∧ (((toOrdinal d : Int) - (toOrdinal today : Int) = 0) ↔ d = today)
        ∧ ((0 < (toOrdinal d : Int) - (toOrdinal today : Int)) ↔ dateLt today d)
        ∧ (((toOrdinal d : Int) - (toOrdinal today : Int) < 0) ↔ dateLt d today))
    ∧ (∀ e : Date, validDate e → toOrdinal (nextDate e) = toOrdinal e + 1) := by
  refine ⟨rfl, ?_, ?_, fun e he => toOrdinal_nextDate he⟩
  · intro s hs
    simp [calculate_days_until_expiration, hs]
  · intro s d hd
    have hvd : validDate d := parseDate_valid hd
    refine ⟨by simp [calculate_days_until_expiration, hd], ?_, ?_, ?_⟩
    · constructor
      · intro h0
        rcases date_trichotomy d today with he | hlt | hgt
        · exact he
        · have := toOrdinal_lt_of_dateLt hvd htoday hlt
          omega
        · have := toOrdinal_lt_of_dateLt htoday hvd hgt
          omega
      · rintro rfl
        omega
    · constructor
      · intro hpos
        rcases date_trichotomy today d with he | hlt | hgt
        · subst he
          omega
        · exact hlt
        · have := toOrdinal_lt_of_dateLt hvd htoday hgt
          omega
      · intro hlt
        have := toOrdinal_lt_of_dateLt htoday hvd hlt
        omega
    · constructor
      · intro hneg
        rcases date_trichotomy d today with he | hlt | hgt
        · subst he
          omega
        · exact hlt
        · have := toOrdinal_lt_of_dateLt htoday hvd hgt
          omega
      · intro hlt
        have := toOrdinal_lt_of_dateLt hvd htoday hlt
        omega

/-- Witness for C4 at today = 2023-12-10 and the unparseable string
"12/15/2023". -/
theorem c4_expiration_arithmetic_witness :
    validDate ⟨2023, 12, 10⟩
    ∧ calculate_days_until_expiration ⟨2023, 12, 10⟩ (PyVal.str "12/15/2023") =
        Except.ok (-1) :=
  ⟨by decide,
   (c4_expiration_arithmetic ⟨2023, 12, 10⟩ (by decide)).2.1 "12/15/2023" (by decide)⟩

theorem find?_first {α : Type} (p : α → Bool) :
    ∀ (l : List α) (a : α), l.find? p = some a →
      p a = true ∧ ∃ pre suf, l = pre ++ a :: suf ∧ ∀ b ∈ pre, p b = false := by
  intro l
  induction l with
  | nil => intro a h; cases h
  | cons x xs ih =>
    intro a h
    cases hx : p x
    · rw [List.find?_cons_of_neg _ (by simp [hx])] at h
      obtain ⟨hpa, pre, suf, hsplit, hpre⟩ := ih a h
      exact ⟨hpa, x :: pre, suf, by rw [hsplit]; rfl, by
        intro b hb
        rcases List.mem_cons.mp hb with rfl | hb
        · exact hx
        · exact hpre b hb⟩
    · rw [List.find?_cons_of_pos _ hx] at h
      cases h
      exact ⟨hx, [], xs, rfl, by simp⟩

theorem isStr_str (s : String) : isStr (PyVal.str s) = true := rfl

theorem missingField_none_all_present {kvs : List (String × PyVal)}
    (h : missingField kvs = Option.none) :
    ∀ f ∈ requiredFields, (dictLookup kvs f).isSome = true := by
  intro f hf
  have hnone := List.find?_eq_none.mp h f hf
  cases hk : dictLookup kvs f
  · exact absurd (by simp [hk]) hnone
  · rfl

/-- C1: every mapping with the seven required fields present, string `id` and
`name`, numeric non-negative `quantity` and a `category` in the fixed set
validates as `{is_valid: true, message: "Food item data is valid"}`; the
`unit`, `expiration_date` and `storage_location` values are arbitrary
(present but never type- or format-checked). -/
theorem c1_validate_accepts_valid_items :
    ∀ (kvs : List (String × PyVal)) (idv namev qv : PyVal) (c : String),
      dictLookup kvs "id" = some idv → isStr idv = true →
      dictLookup kvs "name" = some namev → isStr namev = true →
      dictLookup kvs "category" = some (PyVal.str c) → c ∈ validCategories →
      dictLookup kvs "quantity" = some qv → isNumber qv = true → 0 ≤ numVal qv →
      (dictLookup kvs "unit").isSome = true →
      (dictLookup kvs "expiration_date").isSome = true →
      (dictLookup kvs "storage_location").isSome = true →
      validate_food_item (PyVal.dict kvs) = ⟨true, "Food item data is valid"⟩ := by
  intro kvs idv namev qv c hid hids hname hnames hcat hcmem hq hqnum hqnn hu he hs
  obtain ⟨uv, hu⟩ := Option.isSome_iff_exists.mp hu
  obtain ⟨ev, he⟩ := Option.isSome_iff_exists.mp he
  obtain ⟨sv, hs⟩ := Option.isSome_iff_exists.mp hs
  have hmiss : missingField kvs = Option.none := by
    simp [missingField, requiredFields, List.find?, hid, hname, hcat, hq, hu, he, hs]
  simp [validate_food_item, hmiss, pyGetD, hid, hname, hcat, hq, hids, hnames,
    hqnum, hqnn, strOf, isStr_str, hcmem]

/-- Witness for C1: a fully-populated record validates, with a numeric
`unit` and a null `expiration_date` demonstrating that those fields are not
type-checked. -/
theorem c1_validate_accepts_valid_items_witness :
    validate_food_item (PyVal.dict [("id", PyVal.str "F001"),
      ("name", PyVal.str "Apples"), ("category", PyVal.str "Produce"),
      ("quantity", PyVal.int 25), ("unit", PyVal.int 5),
      ("expiration_date", PyVal.none), ("storage_location", PyVal.str "Cooler 3")]) =
      ⟨true, "Food item data is valid"⟩ :=
  c1_validate_accepts_valid_items _ _ _ _ "Produce" (by rfl) (by rfl) (by rfl)
    (by rfl) (by rfl) (by decide) (by rfl) (by rfl) (by decide) (by rfl) (by rfl)
    (by rfl)

/-- C2: a non-dict input (null included) is rejected with
"Food item must be a dictionary"; a dict missing required fields is rejected
naming exactly the first missing field in the order
id, name, category, quantity, unit, expiration_date, storage_location
(every earlier field is present); when no field is missing no missing-field
message can arise. -/
theorem c2_validate_missing_fields :
    (∀ x : PyVal, isDict x = false →
      validate_food_item x = ⟨false, "Food item must be a dictionary"⟩)
    ∧ (∀ (kvs : List (String × PyVal)) (f : String),
        missingField kvs = some f →
        validate_food_item (PyVal.dict kvs) = ⟨false, "Missing required field: " ++ f⟩
        ∧ (dictLookup kvs f).isNone = true
        ∧ ∃ pre suf, requiredFields = pre ++ f :: suf ∧
            ∀ g ∈ pre, (dictLookup kvs g).isSome = true)
    ∧ (∀ kvs : List (String × PyVal),
        missingField kvs = Option.none →
        ∀ f ∈ requiredFields, (dictLookup kvs f).isSome = true) := by
  refine ⟨?_, ?_, fun kvs h => missingField_none_all_present h⟩
  · intro x hx
    cases x <;> simp_all [validate_food_item, isDict]
  · intro kvs f hf
    obtain ⟨hp, pre, suf, hsplit, hpre⟩ := find?_first _ _ _ hf
    refine ⟨by simp [validate_food_item, hf], hp, pre, suf, hsplit, ?_⟩
    intro g hg
    have hg' := hpre g hg
    cases hk : dictLookup kvs g
    · rw [hk] at hg'
      simp at hg'
    · rfl

/-- Witness for C2: `{"id": "F001"}` is missing `name` first. -/
theorem c2_validate_missing_fields_witness :
    missingField [("id", PyVal.str "F001")] = some "name"
    ∧ validate_food_item (PyVal.dict [("id", PyVal.str "F001")]) =
        ⟨false, "Missing required field: name"⟩ :=
  ⟨by decide,
   (c2_validate_missing_fields.2.1 [("id", PyVal.str "F001")] "name" (by decide)).1⟩

/-- C3: with all fields present and `id`/`name` textual, a non-numeric or
negative `quantity` is rejected with the message
"Quantity must be a positive number", while a `quantity` of exactly zero is
accepted (the check is non-negativity, not strict positivity). -/
theorem c3_quantity_check :
    (∀ (kvs : List (String × PyVal)) (idv namev qv : PyVal),
      missingField kvs = Option.none →
      dictLookup kvs "id" = some idv → isStr idv = true →
      dictLookup kvs "name" = some namev → isStr namev = true →
      dictLookup kvs "quantity" = some qv →
      (isNumber qv = false ∨ numVal qv < 0) →
      validate_food_item (PyVal.dict kvs) =
        ⟨false, "Quantity must be a positive number"⟩)
    ∧ (∀ (kvs : List (String × PyVal)) (idv namev : PyVal) (c : String),
      missingField kvs = Option.none →
      dictLookup kvs "id" = some idv → isStr idv = true →
      dictLookup kvs "name" = some namev → isStr namev = true →
      dictLookup kvs "category" = some (PyVal.str c) → c ∈ validCategories →
      dictLookup kvs "quantity" = some (PyVal.int 0) →
      validate_food_item (PyVal.dict kvs) = ⟨true, "Food item data is valid"⟩) := by
  constructor
  · intro kvs idv namev qv hmiss hid hids hname hnames hq hbad
    have hcond : ¬(isNumber qv = true ∧ 0 ≤ numVal qv) := by
      rcases hbad with h | h
      · simp [h]
      · exact fun hc => absurd hc.2 (not_le.mpr h)
    simp [validate_food_item, hmiss, pyGetD, hid, hname, hq, hids, hnames, hcond]
  · intro kvs idv namev c hmiss hid hids hname hnames hcat hcmem hq
    simp [validate_food_item, hmiss, pyGetD, hid, hname, hcat, hq, hids, hnames,
      isNumber, numVal, strOf, isStr_str, hcmem]

/-- Witness for C3: a record with quantity `-10` is rejected with the
quantity message. -/
theorem c3_quantity_check_witness :
    validate_food_item (PyVal.dict [("id", PyVal.str "F001"),
      ("name", PyVal.str "Test Item"), ("category", PyVal.str "Produce"),
      ("quantity", PyVal.int (-10)), ("unit", PyVal.str "kg"),
      ("expiration_date", PyVal.str "2023-12-15"),
      ("storage_location", PyVal.str "Test Location")]) =
      ⟨false, "Quantity must be a positive number"⟩ :=
  c3_quantity_check.1 _ _ _ _ (by decide) (by rfl) (by rfl) (by rfl) (by rfl)
    (by rfl) (Or.inr (by norm_num [numVal]))

theorem calc_ok_of_dateArgOk (today : Date) {v : PyVal} (h : dateArgOk v = true) :
    ∃ d : Int, calculate_days_until_expiration today v = Except.ok d := by
  cases v <;> simp [dateArgOk] at h
  · exact ⟨-1, rfl⟩
  · rename_i s
    cases hp : parseDate s with
    | none => exact ⟨-1, by simp [calculate_days_until_expiration, hp]⟩
    | some d0 => exact ⟨(toOrdinal d0 : Int) - (toOrdinal today : Int),
        by simp [calculate_days_until_expiration, hp]⟩

theorem expiringGo_eq_filter (today : Date) (n : Int) :
    ∀ items : List PyVal, (∀ x ∈ items, dateFieldOk x = true) →
      expiringGo today n items = Except.ok (items.filter (keepsItem today n)) := by
  intro items
  induction items with
  | nil => intro _; rfl
  | cons x rest ih =>
    intro hall
    have hx := hall x (by simp)
    have hrest := ih (fun z hz => hall z (by simp [hz]))
    cases x
    case dict kvs =>
      cases hk : dictLookup kvs "expiration_date" with
      | none => simp [expiringGo, hk, hrest, List.filter_cons, keepsItem]
      | some v =>
        have hv : dateArgOk v = true := by simpa [dateFieldOk, hk] using hx
        obtain ⟨d, hd⟩ := calc_ok_of_dateArgOk today hv
        by_cases hcond : 0 ≤ d ∧ d ≤ n <;>
          simp [expiringGo, hk, hd, hrest, List.filter_cons, keepsItem, hcond]
    all_goals simp [expiringGo, keepsItem, List.filter_cons, hrest]

/-- C5: `identify_expiring_items` returns the empty list for any non-list
collection; a threshold that is not a Python `int` (null included) behaves
exactly as the default `7`; and on a list whose `expiration_date` values are
null or strings it returns exactly the in-order sublist of dict elements
whose computed days-to-expire `d` satisfies `0 ≤ d ≤ threshold` (day 0 and
day = threshold included, negative days and larger days excluded, non-dict
elements and elements lacking the field skipped). -/
theorem c5_identify_expiring (today : Date) :
    (∀ fi t : PyVal, isList fi = false → identify_expiring_items today fi t = Except.ok [])
    ∧ (∀ t : PyVal, isIntInstance t = false → ∀ fi : PyVal,
        identify_expiring_items today fi t = identify_expiring_items today fi (PyVal.int 7))
    ∧ (∀ (n : Int) (items : List PyVal), (∀ x ∈ items, dateFieldOk x = true) →
        identify_expiring_items today (PyVal.list items) (PyVal.int n) =
          Except.ok (items.filter (keepsItem today n))) := by
  refine ⟨?_, ?_, ?_⟩
  · intro fi t hfi
    cases fi <;> simp_all [identify_expiring_items, isList]
  · intro t ht fi
    have h7 : thresholdOf t = 7 := by
      cases t <;> simp_all [thresholdOf, isIntInstance]
    have h77 : thresholdOf (PyVal.int 7) = 7 := rfl
    cases fi <;> simp [identify_expiring_items, h7, h77]
  · intro n items hall
    simp [identify_expiring_items, thresholdOf, expiringGo_eq_filter today n items hall]

/-- Witness for C5: with today = 2023-12-10 and threshold 7, items at
offsets 0, 7, 8, -1 days keep exactly the offset-0 and offset-7 ones, in
order, skipping a junk element. -/
theorem c5_identify_expiring_witness :
    (∀ x ∈ [PyVal.dict [("id", PyVal.str "a"), ("expiration_date", PyVal.str "2023-12-10")],
            PyVal.dict [("id", PyVal.str "b"), ("expiration_date", PyVal.str "2023-12-17")],
            PyVal.dict [("id", PyVal.str "c"), ("expiration_date", PyVal.str "2023-12-18")],
            PyVal.dict [("id", PyVal.str "d"), ("expiration_date", PyVal.str "2023-12-09")],
            PyVal.str "junk"], dateFieldOk x = true)
    ∧ identify_expiring_items ⟨2023, 12, 10⟩
        (PyVal.list [PyVal.dict [("id", PyVal.str "a"), ("expiration_date", PyVal.str "2023-12-10")],
            PyVal.dict [("id", PyVal.str "b"), ("expiration_date", PyVal.str "2023-12-17")],
            PyVal.dict [("id", PyVal.str "c"), ("expiration_date", PyVal.str "2023-12-18")],
            PyVal.dict [("id", PyVal.str "d"), ("expiration_date", PyVal.str "2023-12-09")],
            PyVal.str "junk"]) (PyVal.int 7) =
        Except.ok [PyVal.dict [("id", PyVal.str "a"), ("expiration_date", PyVal.str "2023-12-10")],
            PyVal.dict [("id", PyVal.str "b"), ("expiration_date", PyVal.str "2023-12-17")]] :=
  ⟨by decide, by
    rw [(c5_identify_expiring ⟨2023, 12, 10⟩).2.2 7 _ (by decide)]
    rfl⟩

/-- C10: an item whose `expiration_date` is present but null or an
unparseable string computes the sentinel `-1` days — the same value an item
expired yesterday computes — and is therefore excluded by the filter for
every threshold. -/
theorem c10_invalid_dates_excluded (today : Date) (n : Int) :
    ∀ (kvs : List (String × PyVal)) (v : PyVal),
      dictLookup kvs "expiration_date" = some v →
      (v = PyVal.none ∨ ∃ s : String, v = PyVal.str s ∧ parseDate s = Option.none) →
      calculate_days_until_expiration today v = Except.ok (-1)
      ∧ keepsItem today n (PyVal.dict kvs) = false
      ∧ identify_expiring_items today (PyVal.list [PyVal.dict kvs]) (PyVal.int n) =
          Except.ok [] := by
  intro kvs v hk hv
  have hneg : ¬((0 : Int) ≤ -1 ∧ (-1 : Int) ≤ n) := by omega
  have hcalc : calculate_days_until_expiration today v = Except.ok (-1) := by
    rcases hv with rfl | ⟨s, rfl, hp⟩
    · rfl
    · simp [calculate_days_until_expiration, hp]
  refine ⟨hcalc, ?_, ?_⟩
  · simp [keepsItem, hk, hcalc, hneg]
  · simp [identify_expiring_items, thresholdOf, expiringGo, hk, hcalc, hneg]

/-- Witness for C10: an item dated "not-a-date" is excluded at threshold 7. -/
theorem c10_invalid_dates_excluded_witness :
    dictLookup [("expiration_date", PyVal.str "not-a-date")] "expiration_date" =
      some (PyVal.str "not-a-date")
    ∧ identify_expiring_items ⟨2023, 12, 10⟩
        (PyVal.list [PyVal.dict [("expiration_date", PyVal.str "not-a-date")]])
        (PyVal.int 7) = Except.ok [] :=
  ⟨by rfl,
   (c10_invalid_dates_excluded ⟨2023, 12, 10⟩ 7 _ _ (by rfl)
     (Or.inr ⟨"not-a-date", rfl, by decide⟩)).2.2⟩

theorem pyLt_on_strKeys {x y : PyVal} (hx : isStr (sortKey x) = true)
    (hy : isStr (sortKey y) = true) :
    pyLt (sortKey y) (sortKey x) = Except.ok (decide (keyStr y < keyStr x)) := by
  cases hsx : sortKey x <;> rw [hsx] at hx <;> simp [isStr] at hx
  cases hsy : sortKey y <;> rw [hsy] at hy <;> simp [isStr] at hy
  simp [pyLt, keyStr, hsx, hsy, strOf]

theorem insertByKeyE_eq {x : PyVal} (hx : isStr (sortKey x) = true) :
    ∀ l : List PyVal, (∀ z ∈ l, isStr (sortKey z) = true) →
      insertByKeyE x l = Except.ok (List.orderedInsert keyLe x l) := by
  intro l
  induction l with
  | nil => intro _; rfl
  | cons y ys ih =>
    intro hall
    have hy := hall y (by simp)
    have hys := ih (fun z hz => hall z (by simp [hz]))
    have hp := pyLt_on_strKeys hx hy
    by_cases hlt : keyStr y < keyStr x
    · have hno : ¬ keyLe x y := by
        simp only [keyLe]
        exact not_le.mpr hlt
      simp [insertByKeyE, hp, hlt, hys, List.orderedInsert, hno]
    · have hyes : keyLe x y := not_lt.mp hlt
      simp [insertByKeyE, hp, hlt, List.orderedInsert, hyes]

theorem insertionSortE_eq :
    ∀ l : List PyVal, (∀ z ∈ l, isStr (sortKey z) = true) →
      insertionSortE l = Except.ok (List.insertionSort keyLe l) := by
  intro l
  induction l with
  | nil => intro _; rfl
  | cons x xs ih =>
    intro hall
    have hx := hall x (by simp)
    have hxs := ih (fun z hz => hall z (by simp [hz]))
    have hmem : ∀ z ∈ List.insertionSort keyLe xs, isStr (sortKey z) = true := by
      intro z hz
      exact hall z (by simp [(List.perm_insertionSort keyLe xs).mem_iff.mp hz])
    simp [insertionSortE, hxs, insertByKeyE_eq hx _ hmem, List.insertionSort]

theorem filter_orderedInsert (s : String) (x : PyVal) :
    ∀ l : List PyVal,
      List.filter (keyIs s) (List.orderedInsert keyLe x l) =
        if keyIs s x then x :: List.filter (keyIs s) l
        else List.filter (keyIs s) l := by
  intro l
  induction l with
  | nil => by_cases hx : keyIs s x <;> simp [List.orderedInsert, List.filter, hx]
  | cons y ys ih =>
    rw [List.orderedInsert]
    by_cases hxy : keyLe x y
    · rw [if_pos hxy]
      by_cases hx : keyIs s x <;> simp [hx, List.filter_cons]
    · rw [if_neg hxy]
      by_cases hky : keyIs s y
      · by_cases hkx : keyIs s x
        · exfalso
          apply hxy
          simp only [keyIs, beq_iff_eq] at hkx hky
          simp [keyLe, hkx, hky]
        · simp [List.filter_cons, hky, ih, hkx]
      · by_cases hkx : keyIs s x <;> simp [List.filter_cons, hky, ih, hkx]

theorem filter_insertionSort (s : String) :
    ∀ l : List PyVal,
      List.filter (keyIs s) (List.insertionSort keyLe l) = List.filter (keyIs s) l := by
  intro l
  induction l with
  | nil => rfl
  | cons x xs ih =>
    by_cases hx : keyIs s x <;>
      simp [List.insertionSort, filter_orderedInsert, hx, ih, List.filter_cons]

theorem insertByKeyE_perm :
    ∀ (x : PyVal) (l out : List PyVal),
      insertByKeyE x l = Except.ok out → out.Perm (x :: l) := by
  intro x l
  induction l with
  | nil =>
    intro out h
    cases h
    exact List.Perm.refl _
  | cons y ys ih =>
    intro out h
    unfold insertByKeyE at h
    cases hp : pyLt (sortKey y) (sortKey x) with
    | error e => rw [hp] at h; cases h
    | ok b =>
      rw [hp] at h
      cases b
      · cases h
        exact List.Perm.refl _
      · cases hrec : insertByKeyE x ys with
        | error e => rw [hrec] at h; cases h
        | ok t =>
          rw [hrec] at h
          cases h
          exact ((ih t hrec).cons y).trans (List.Perm.swap x y ys)

theorem insertionSortE_perm :
    ∀ l out : List PyVal, insertionSortE l = Except.ok out → out.Perm l := by
  intro l
  induction l with
  | nil =>
    intro out h
    cases h
    exact List.Perm.refl _
  | cons x xs ih =>
    intro out h
    unfold insertionSortE at h
    cases hrec : insertionSortE xs with
    | error e => rw [hrec] at h; cases h
    | ok t =>
      rw [hrec] at h
      exact (insertByKeyE_perm x t out h).trans ((ih t hrec).cons x)

/-- C6: `sort_items_by_expiration` yields the empty list on a non-list
input; non-dict entries and entries lacking `expiration_date` carry the
sentinel maximum key "9999-12-31" (so they sort last); and on a list whose
keys are all strings it produces a permutation of the input that is ordered
ascending by the key string (lexicographically) and stable: for every key
value, the elements carrying it appear in their original relative order. -/
theorem c6_sort_by_expiration :
    (∀ fi : PyVal, isList fi = false → sort_items_by_expiration fi = Except.ok [])
    ∧ (∀ x : PyVal, isDict x = false → sortKey x = PyVal.str "9999-12-31")
    ∧ (∀ kvs : List (String × PyVal), dictLookup kvs "expiration_date" = Option.none →
        sortKey (PyVal.dict kvs) = PyVal.str "9999-12-31")
    ∧ (∀ items : List PyVal, (∀ z ∈ items, isStr (sortKey z) = true) →
        ∃ out : List PyVal, sort_items_by_expiration (PyVal.list items) = Except.ok out
          ∧ out.Pairwise keyLe
          ∧ out.Perm items
          ∧ ∀ s : String, out.filter (keyIs s) = items.filter (keyIs s)) := by
  refine ⟨?_, ?_, ?_, ?_⟩
  · intro fi hfi
    cases fi <;> simp_all [sort_items_by_expiration, isList]
  · intro x hx
    cases x <;> simp_all [sortKey, isDict]
  · intro kvs hk
    simp [sortKey, hk]
  · intro items hall
    refine ⟨List.insertionSort keyLe items, ?_, ?_, ?_, ?_⟩
    · simp [sort_items_by_expiration, insertionSortE_eq items hall]
    · exact List.sorted_insertionSort keyLe items
    · exact List.perm_insertionSort keyLe items
    · intro s
      exact filter_insertionSort s items

/-- Witness for C6: two equal-key records keep their relative order and a
non-dict entry sorts last. -/
theorem c6_sort_by_expiration_witness :
    (∀ z ∈ [PyVal.dict [("id", PyVal.str "1"), ("expiration_date", PyVal.str "2023-12-15")],
            PyVal.dict [("id", PyVal.str "2"), ("expiration_date", PyVal.str "2023-12-10")],
            PyVal.str "junk",
            PyVal.dict [("id", PyVal.str "3"), ("expiration_date", PyVal.str "2023-12-10")]],
        isStr (sortKey z) = true)
    ∧ ∃ out : List PyVal,
        sort_items_by_expiration
          (PyVal.list [PyVal.dict [("id", PyVal.str "1"), ("expiration_date", PyVal.str "2023-12-15")],
            PyVal.dict [("id", PyVal.str "2"), ("expiration_date", PyVal.str "2023-12-10")],
            PyVal.str "junk",
            PyVal.dict [("id", PyVal.str "3"), ("expiration_date", PyVal.str "2023-12-10")]]) =
          Except.ok out
        ∧ out.Pairwise keyLe
        ∧ out.Perm [PyVal.dict [("id", PyVal.str "1"), ("expiration_date", PyVal.str "2023-12-15")],
            PyVal.dict [("id", PyVal.str "2"), ("expiration_date", PyVal.str "2023-12-10")],
            PyVal.str "junk",
            PyVal.dict [("id", PyVal.str "3"), ("expiration_date", PyVal.str "2023-12-10")]]
        ∧ ∀ s : String,
            out.filter (keyIs s) =
              [PyVal.dict [("id", PyVal.str "1"), ("expiration_date", PyVal.str "2023-12-15")],
               PyVal.dict [("id", PyVal.str "2"), ("expiration_date", PyVal.str "2023-12-10")],
               PyVal.str "junk",
               PyVal.dict [("id", PyVal.str "3"), ("expiration_date", PyVal.str "2023-12-10")]].filter
                (keyIs s) :=
  ⟨by decide, c6_sort_by_expiration.2.2.2 _ (by decide)⟩

theorem findRecipientE_eq (cat : PyVal) :
    ∀ recs : List PyVal, (∀ r ∈ recs, accOk r = true) →
      findRecipientE cat recs = Except.ok (firstAccepting cat recs) := by
  intro recs
  induction recs with
  | nil => intro _; rfl
  | cons r rest ih =>
    intro hall
    have hr := hall r (by simp)
    have hrest := ih (fun z hz => hall z (by simp [hz]))
    cases r
    case dict kvs =>
      cases hk : dictLookup kvs "accepts_categories" with
      | none => simp [findRecipientE, firstAccepting, hk, hrest]
      | some acc =>
        cases acc <;> simp [accOk, hk] at hr
        rename_i cs
        by_cases hc : cs.any (fun c => pyEq c cat) <;>
          simp [findRecipientE, firstAccepting, hk, pyContains, hc, hrest]
    all_goals simp [findRecipientE, firstAccepting, hrest]

theorem matchGo_eq (recs : List PyVal) (hrecs : ∀ r ∈ recs, accOk r = true) :
    ∀ items : List PyVal,
      matchGo recs items = Except.ok (items.filterMap (matchOf recs)) := by
  intro items
  induction items with
  | nil => rfl
  | cons item rest ih =>
    cases item
    case dict kvs =>
      cases hk : dictLookup kvs "category" with
      | none => simp [matchGo, hk, ih, List.filterMap_cons, matchOf]
      | some cat =>
        cases hfa : firstAccepting cat recs with
        | none =>
          simp [matchGo, hk, findRecipientE_eq cat recs hrecs, hfa, ih,
            List.filterMap_cons, matchOf]
        | some r =>
          simp [matchGo, hk, findRecipientE_eq cat recs hrecs, hfa, ih,
            List.filterMap_cons, matchOf]
    all_goals simp [matchGo, ih, List.filterMap_cons, matchOf]

/-- C7: `match_donations` returns the empty list when either argument is not
a list; otherwise (for recipients whose `accepts_categories`, when present on
a dict, is a list) it is exactly greedy first-fit pairing: each dict item
with a `category`, in input order, pairs with the first recipient in input
order that is a dict whose `accepts_categories` contains that category —
at most one match per item, none when no recipient accepts, recipients
lacking the field never match, a recipient may recur, and the output order
follows item input order. -/
theorem c7_match_donations :
    (∀ fi r : PyVal, (isList fi = false ∨ isList r = false) →
      match_donations fi r = Except.ok [])
    ∧ (∀ items recs : List PyVal, (∀ r ∈ recs, accOk r = true) →
        match_donations (PyVal.list items) (PyVal.list recs) =
          Except.ok (items.filterMap (matchOf recs))) := by
  constructor
  · intro fi r h
    cases fi <;> cases r <;> simp_all [match_donations, isList]
  · intro items recs h
    simp [match_donations, matchGo_eq recs h items]

/-- Witness for C7: two Produce items both match the first recipient, the
Meat item matches nobody, the field-less recipient never matches, and a junk
element is skipped. -/
theorem c7_match_donations_witness :
    (∀ r ∈ [PyVal.dict [("id", PyVal.str "R1"),
              ("accepts_categories", PyVal.list [PyVal.str "Produce"])],
            PyVal.dict [("id", PyVal.str "R2")]], accOk r = true)
    ∧ match_donations
        (PyVal.list [PyVal.dict [("id", PyVal.str "F1"), ("category", PyVal.str "Produce")],
          PyVal.dict [("id", PyVal.str "F2"), ("category", PyVal.str "Meat")],
          PyVal.dict [("id", PyVal.str "F3"), ("category", PyVal.str "Produce")],
          PyVal.str "junk"])
        (PyVal.list [PyVal.dict [("id", PyVal.str "R1"),
            ("accepts_categories", PyVal.list [PyVal.str "Produce"])],
          PyVal.dict [("id", PyVal.str "R2")]]) =
      Except.ok
        [PyVal.dict [("item", PyVal.dict [("id", PyVal.str "F1"), ("category", PyVal.str "Produce")]),
           ("recipient", PyVal.dict [("id", PyVal.str "R1"),
             ("accepts_categories", PyVal.list [PyVal.str "Produce"])])],
         PyVal.dict [("item", PyVal.dict [("id", PyVal.str "F3"), ("category", PyVal.str "Produce")]),
           ("recipient", PyVal.dict [("id", PyVal.str "R1"),
             ("accepts_categories", PyVal.list [PyVal.str "Produce"])])]] :=
  ⟨by decide, by
    rw [c7_match_donations.2 _ _ (by decide)]
    rfl⟩

theorem expiringGo_sublist (today : Date) (n : Int) :
    ∀ items out : List PyVal, expiringGo today n items = Except.ok out →
      out.Sublist items := by
  intro items
  induction items with
  | nil =>
    intro out h
    cases h
    exact List.Sublist.refl _
  | cons x rest ih =>
    intro out h
    cases x
    all_goals unfold expiringGo at h
    all_goals simp only [] at h
    case dict kvs =>
      cases hk : dictLookup kvs "expiration_date" with
      | none =>
        simp only [hk] at h
        exact (ih out h).cons _
      | some v =>
        simp only [hk] at h
        cases hc : calculate_days_until_expiration today v with
        | error e => simp only [hc] at h; cases h
        | ok d =>
          simp only [hc] at h
          cases hrec : expiringGo today n rest with
          | error e => simp only [hrec] at h; cases h
          | ok tail =>
            simp only [hrec] at h
            cases h
            by_cases hcond : 0 ≤ d ∧ d ≤ n
            · rw [if_pos hcond]
              exact (ih tail hrec).cons₂ _
            · rw [if_neg hcond]
              exact (ih tail hrec).cons _
    all_goals exact (ih out h).cons _

theorem findRecipientE_mem (cat : PyVal) :
    ∀ (recs : List PyVal) (r : PyVal),
      findRecipientE cat recs = Except.ok (some r) → r ∈ recs := by
  intro recs
  induction recs with
  | nil =>
    intro r h
    simp [findRecipientE] at h
  | cons r0 rest ih =>
    intro r h
    cases r0
    all_goals unfold findRecipientE at h
    all_goals simp only [] at h
    case dict kvs =>
      cases hk : dictLookup kvs "accepts_categories" with
      | none =>
        simp only [hk] at h
        exact List.mem_cons_of_mem _ (ih r h)
      | some acc =>
        simp only [hk] at h
        cases hc : pyContains acc cat with
        | error e => simp only [hc] at h; cases h
        | ok b =>
          simp only [hc] at h
          cases b
          · exact List.mem_cons_of_mem _ (ih r h)
          · cases h
            exact List.mem_cons_self _ _
    all_goals exact List.mem_cons_of_mem _ (ih r h)

theorem matchGo_mem (recs : List PyVal) :
    ∀ items out : List PyVal, matchGo recs items = Except.ok out →
      ∀ m ∈ out, ∃ item ∈ items, ∃ r ∈ recs,
        m = PyVal.dict [("item", item), ("recipient", r)] := by
  intro items
  induction items with
  | nil =>
    intro out h
    cases h
    intro m hm
    simp at hm
  | cons item rest ih =>
    intro out h
    cases item
    all_goals unfold matchGo at h
    all_goals simp only [] at h
    case dict kvs =>
      cases hk : dictLookup kvs "category" with
      | none =>
        simp only [hk] at h
        intro m hm
        obtain ⟨it, hit, r, hr, hme⟩ := ih out h m hm
        exact ⟨it, List.mem_cons_of_mem _ hit, r, hr, hme⟩
      | some cat =>
        simp only [hk] at h
        cases hf : findRecipientE cat recs with
        | error e => simp only [hf] at h; cases h
        | ok ro =>
          simp only [hf] at h
          cases ro with
          | none =>
            intro m hm
            obtain ⟨it, hit, r, hr, hme⟩ := ih out h m hm
            exact ⟨it, List.mem_cons_of_mem _ hit, r, hr, hme⟩
          | some r0 =>
            cases hrec : matchGo recs rest with
            | error e => simp only [hrec] at h; cases h
            | ok tail =>
              simp only [hrec] at h
              cases h
              intro m hm
              rcases List.mem_cons.mp hm with rfl | hm
              · exact ⟨PyVal.dict kvs, List.mem_cons_self _ _,
                  r0, findRecipientE_mem cat recs r0 hf, rfl⟩
              · obtain ⟨it, hit, r, hr, hme⟩ := ih tail hrec m hm
                exact ⟨it, List.mem_cons_of_mem _ hit, r, hr, hme⟩
    all_goals
      intro m hm
      obtain ⟨it, hit, r, hr, hme⟩ := ih out h m hm
      exact ⟨it, List.mem_cons_of_mem _ hit, r, hr, hme⟩

/-- C9: inputs are read-only views — in the embedding every operation is a
pure function, and the outputs are built only from the inputs: the sorted
output is a permutation of the input list, the expiring-items output is an
in-order sublist of the input list, and every donation match is a pair of an
input item with an input recipient. -/
theorem c9_inputs_read_only :
    (∀ items out : List PyVal,
      sort_items_by_expiration (PyVal.list items) = Except.ok out → out.Perm items)
    ∧ (∀ (today : Date) (items : List PyVal) (t : PyVal) (out : List PyVal),
        identify_expiring_items today (PyVal.list items) t = Except.ok out →
        out.Sublist items)
    ∧ (∀ items recs out : List PyVal,
        match_donations (PyVal.list items) (PyVal.list recs) = Except.ok out →
        ∀ m ∈ out, ∃ item ∈ items, ∃ r ∈ recs,
          m = PyVal.dict [("item", item), ("recipient", r)]) := by
  refine ⟨?_, ?_, ?_⟩
  · intro items out h
    exact insertionSortE_perm items out (by simpa [sort_items_by_expiration] using h)
  · intro today items t out h
    exact expiringGo_sublist today (thresholdOf t) items out
      (by simpa [identify_expiring_items] using h)
  · intro items recs out h
    exact matchGo_mem recs items out (by simpa [match_donations] using h)

/-- Witness for C9: a concrete sorted output is a permutation of the input. -/
theorem c9_inputs_read_only_witness :
    sort_items_by_expiration
      (PyVal.list [PyVal.dict [("expiration_date", PyVal.str "2023-12-10")]]) =
      Except.ok [PyVal.dict [("expiration_date", PyVal.str "2023-12-10")]]
    ∧ List.Perm [PyVal.dict [("expiration_date", PyVal.str "2023-12-10")]]
        [PyVal.dict [("expiration_date", PyVal.str "2023-12-10")]] :=
  ⟨by rfl, c9_inputs_read_only.1 _ _ (by rfl)⟩

/-- C8 counterexample: the source catches only `ValueError`, so an item
whose `expiration_date` is an `int` makes `strptime` raise `TypeError`,
which `identify_expiring_items` propagates to its caller instead of
degrading to a sentinel. -/
theorem c8_no_exceptions_counterexample :
    identify_expiring_items ⟨2023, 12, 10⟩
      (PyVal.list [PyVal.dict [("expiration_date", PyVal.int 20231215)]])
      (PyVal.int 7) =
      Except.error "TypeError: strptime() argument 1 must be str" := by
  rfl

/-- C8 (amended): `validate_food_item` and `format_food_item` never raise
and degrade to their sentinels on non-dict input; the other four operations
raise no exception provided every `expiration_date` value encountered is
null or a string, every sort key is a string, and every
`accepts_categories` value present on a dict recipient is a list — in all
such cases they return an ordinary result (sentinels included) rather than
propagating an exception. -/
theorem c8_no_exceptions_amended (today : Date) :
    (∀ x : PyVal, isDict x = false →
      validate_food_item x = ⟨false, "Food item must be a dictionary"⟩
      ∧ format_food_item x = "Invalid food item format")
    ∧ (∀ v : PyVal, dateArgOk v = true →
        ∃ d : Int, calculate_days_until_expiration today v = Except.ok d)
    ∧ (∀ fi t : PyVal, collOkDates fi = true →
        ∃ out : List PyVal, identify_expiring_items today fi t = Except.ok out)
    ∧ (∀ fi : PyVal, collOkKeys fi = true →
        ∃ out : List PyVal, sort_items_by_expiration fi = Except.ok out)
    ∧ (∀ fi r : PyVal, collOkAcc r = true →
        ∃ out : List PyVal, match_donations fi r = Except.ok out) := by
  refine ⟨?_, fun v hv => calc_ok_of_dateArgOk today hv, ?_, ?_, ?_⟩
  · intro x hx
    cases x <;> simp_all [validate_food_item, format_food_item, isDict]
  · intro fi t hfi
    cases fi
    case list items =>
      have hall : ∀ x ∈ items, dateFieldOk x = true :=
        List.all_eq_true.mp (by simpa [collOkDates] using hfi)
      exact ⟨items.filter (keepsItem today (thresholdOf t)), by
        simpa [identify_expiring_items] using
          expiringGo_eq_filter today (thresholdOf t) items hall⟩
    all_goals exact ⟨[], rfl⟩
  · intro fi hfi
    cases fi
    case list items =>
      have hall : ∀ z ∈ items, isStr (sortKey z) = true :=
        List.all_eq_true.mp (by simpa [collOkKeys] using hfi)
      exact ⟨List.insertionSort keyLe items, by
        simpa [sort_items_by_expiration] using insertionSortE_eq items hall⟩
    all_goals exact ⟨[], rfl⟩
  · intro fi r hr
    cases fi
    case list items =>
      cases r
      case list recs =>
        have hall : ∀ z ∈ recs, accOk z = true :=
          List.all_eq_true.mp (by simpa [collOkAcc] using hr)
        exact ⟨items.filterMap (matchOf recs), by
          simpa [match_donations] using matchGo_eq recs hall items⟩
      all_goals exact ⟨[], rfl⟩
    all_goals exact ⟨[], rfl⟩

/-- Witness for C8 (amended): a well-shaped one-item list is filtered
without an exception. -/
theorem c8_no_exceptions_amended_witness :
    collOkDates (PyVal.list [PyVal.dict [("expiration_date", PyVal.str "2023-12-15")]]) = true
    ∧ ∃ out : List PyVal,
        identify_expiring_items ⟨2023, 12, 10⟩
          (PyVal.list [PyVal.dict [("expiration_date", PyVal.str "2023-12-15")]])
          (PyVal.int 7) = Except.ok out :=
  ⟨by decide,
   (c8_no_exceptions_amended ⟨2023, 12, 10⟩).2.2.1 _ (PyVal.int 7) (by decide)⟩
